import Mathlib

/-!
Verification development for the gym-collabsort board simulation.

Shallow embedding of the final draft variant of the repository
(`gym_collabsort/envs/env.py`, `gym_collabsort/board/arm.py`,
`gym_collabsort/board/board.py`, `gym_collabsort/board/sprite.py`,
`gym_collabsort/board/scorebar.py`, `gym_collabsort/envs/robot.py`,
`gym_collabsort/cell.py`, `gym_collabsort/grid.py`), with the default
`Config` values of `gym_collabsort/config.py`:

  n_rows = 10, n_cols = 16, board_cell_size = 50, arm_base_col = 4,
  upper_treadmill_row = 4, lower_treadmill_row = 7,
  step_reward = 0, movement_penalty = -1, collision_penalty = -10.

Positions are modelled in pixel coordinates of sprite centers, exactly as
the code stores them (`Sprite.location` of `board/sprite.py`):
  - both arm bases and both grippers sit on the fixed column
    x = (arm_base_col - 0.5) * board_cell_size = 175; `Sprite.move` is only
    ever called with a row offset for grippers, so a gripper's x never
    changes and we record only its y coordinate;
  - the agent base center is y = board_height - cell/2 = 475, the robot
    base center is y = cell/2 = 25 (`Board.__init__`);
  - objects spawn at x = round(cell*(n_cols-0.5)) = 775 and
    y = (treadmill_row - 0.5)*cell, i.e. 175 or 325 (`Board._add_object`).

Python object identity of sprites is modelled by a numeric `id` drawn from
a ghost counter `nextId` that is never reset (two sprites created at
different times are never `==` in pygame, which has no custom `__eq__`).
`spritecollide` between the two gripper sprites (squares of side
arm_gripper_size = 25 centered on the same column) holds exactly when the
center distance on each axis is < 25; since the x distance is always 0,
this is `|Δy| < 25`.
-/

namespace CollabSort

/-- Colors of objects, from `Color` in `config.py`. -/
inductive Color where
  | red
  | blue
  | yellow
deriving DecidableEq, Repr

/-- Shapes of objects, from `Shape` in `config.py`. -/
inductive Shape where
  | square
  | circle
  | triangle
deriving DecidableEq, Repr

/-- Discrete actions of `Action` in `config.py` (NONE/UP/DOWN/PICK), the
enum `Arm.act` compares against; `wait` renders NONE. -/
inductive Act where
  | wait
  | up
  | down
  | pick
deriving DecidableEq, Repr

/-- Board cell size in pixels (`board_cell_size`). -/
def cell : Int := 50

/-- Fixed x coordinate of both arm bases and grippers,
(arm_base_col - 0.5) * board_cell_size. -/
def armX : Int := 175

/-- Agent arm base center y, board_height - board_cell_size/2. -/
def agentBaseY : Int := 475

/-- Robot arm base center y, board_cell_size/2. -/
def robotBaseY : Int := 25

/-- Center y of objects on the upper treadmill,
(upper_treadmill_row - 0.5) * cell. -/
def upperY : Int := 175

/-- Center y of objects on the lower treadmill,
(lower_treadmill_row - 0.5) * cell. -/
def lowerY : Int := 325

/-- Spawn x of new objects, round(cell * (n_cols - 0.5)). -/
def spawnX : Int := 775

/-- Side of the gripper sprite square, arm_gripper_size = cell / 2. -/
def gripSize : Int := 25

/-- Per-step base reward (`Config.step_reward`). -/
def stepReward : Int := 0

/-- Movement penalty for UP/DOWN actions (`Config.movement_penalty`). -/
def movementPenalty : Int := -1

/-- Negative reward on a collision tick (`Config.collision_penalty`). -/
def collisionPenalty : Int := -10

/-- Reward table of the agent (`Config.agent_rewards`): rows are indexed
by object color, columns by object shape. -/
def agentRewards : Color → Shape → Int
  | Color.red, Shape.square => 8
  | Color.red, Shape.circle => 7
  | Color.red, Shape.triangle => 6
  | Color.blue, Shape.square => 5
  | Color.blue, Shape.circle => 4
  | Color.blue, Shape.triangle => 3
  | Color.yellow, Shape.square => 2
  | Color.yellow, Shape.circle => 1
  | Color.yellow, Shape.triangle => 0

/-- Reward table of the robot (`Config.robot_rewards`). -/
def robotRewards : Color → Shape → Int
  | Color.red, Shape.square => 5
  | Color.red, Shape.circle => 4
  | Color.red, Shape.triangle => 3
  | Color.blue, Shape.square => 8
  | Color.blue, Shape.circle => 7
  | Color.blue, Shape.triangle => 6
  | Color.yellow, Shape.square => 2
  | Color.yellow, Shape.circle => 1
  | Color.yellow, Shape.triangle => 0

/-- Modelled from the spec: `Object.get_reward` is called by
`CollabSortEnv.step` (env.py lines 256 and 268) but is not defined
anywhere under src/.  Per the spec's "color+shape reward table lookup"
and the config comment "Rows are indiced by object color, columns by
object shape", it looks the object's color and shape up in the given
reward table. -/
def getReward (table : Color → Shape → Int) (c : Color) (s : Shape) : Int :=
  table c s

/-- Board object (`Object` of `board/object.py`): a sprite with a center
position, a color and a shape.  `id` models Python object identity. -/
structure Obj where
  id : Nat
  x : Int
  y : Int
  color : Color
  shape : Shape
deriving DecidableEq, Repr

/-- Arm state (`Arm` of `board/arm.py`): fixed base, mobile gripper (both
on column x = 175, so only y is recorded), the collision-penalty flag and
the single-sprite group of the picked object (recorded by object id). -/
structure Arm where
  baseY : Int
  gy : Int
  penalty : Bool
  picked : Option Nat
deriving DecidableEq, Repr

/-- Moving-back property of an arm (`Arm.moving_back`): the arm is
holding an object or is under collision penalty. -/
def Arm.movingBack (a : Arm) : Bool :=
  a.picked.isSome || a.penalty

/-- Retraction test (`Arm.is_retracted`): the gripper sits at the base
location.  Both share the fixed x = 175, so only y is compared. -/
def Arm.retracted (a : Arm) : Bool :=
  a.gy = a.baseY

/-- Gripper-gripper collision (`Arm.collide_arm` via `spritecollide`):
rect overlap of the two 25-pixel gripper squares that share column
x = 175, i.e. center y distance < 25. -/
def collideY (y1 y2 : Int) : Bool :=
  (y1 - y2).natAbs < 25

/-- Result of `Arm._move`: the updated arms and object group, the
returned collision status, and the returned placed object. -/
structure MoveOut where
  me : Arm
  other : Arm
  objs : List Obj
  collision : Bool
  placed : Option Obj
deriving Repr

/-- Translation of `Arm._move(row_offset, objects, other_arm)`
(board/arm.py lines 190-224): move the gripper by one row, carry the
picked object along, test the collision against the other gripper
(setting both penalty flags), and on retraction clear the own penalty and
detach/remove the picked object.  The returned collision status is
`self.collision_penalty` after all updates. -/
def armMove (me other : Arm) (objs : List Obj) (off : Int) : MoveOut :=
  let gy := me.gy + off * cell
  let objs1 :=
    match me.picked with
    | some i => objs.map (fun o => if o.id = i then { o with y := o.y + off * cell } else o)
    | none => objs
  let hit := collideY gy other.gy
  let mePen := if hit then true else me.penalty
  let otherPen := if hit then true else other.penalty
  if gy = me.baseY then
    match me.picked with
    | some i =>
        { me := { me with gy := gy, penalty := false, picked := none }
          other := { other with penalty := otherPen }
          objs := objs1.filter (fun o => o.id ≠ i)
          collision := false
          placed := objs1.find? (fun o => o.id = i) }
    | none =>
        { me := { me with gy := gy, penalty := false }
          other := { other with penalty := otherPen }
          objs := objs1
          collision := false
          placed := none }
  else
    { me := { me with gy := gy, penalty := mePen }
      other := { other with penalty := otherPen }
      objs := objs1
      collision := mePen
      placed := none }

/-- Result of `Arm.act`: updated state plus the returned triple
(collision, placed object, picked object). -/
structure ActOut where
  me : Arm
  other : Arm
  objs : List Obj
  collision : Bool
  placed : Option Obj
  picked : Option Obj
deriving Repr

/-- Translation of `Arm.act(action, objects, other_arm)` (board/arm.py
lines 132-188).  A moving-back arm first auto-moves one row toward its
base (nothing happens when the gripper row equals the base row).  The
action tests are separate `if`s, so a supplied UP/DOWN also executes
after the auto-move, overwriting the collision status and discarding that
move's placed object; PICK claims the unique object at the gripper's
location, if the arm holds nothing and exactly one object is there. -/
def armAct (me other : Arm) (a : Act) (objs : List Obj) : ActOut :=
  let m0 : MoveOut :=
    if me.movingBack then
      if me.gy > me.baseY then armMove me other objs (-1)
      else if me.gy < me.baseY then armMove me other objs 1
      else { me := me, other := other, objs := objs, collision := false, placed := none }
    else { me := me, other := other, objs := objs, collision := false, placed := none }
  match a with
  | Act.up =>
      let m1 := armMove m0.me m0.other m0.objs (-1)
      { me := m1.me, other := m1.other, objs := m1.objs
        collision := m1.collision, placed := m0.placed, picked := none }
  | Act.down =>
      let m1 := armMove m0.me m0.other m0.objs 1
      { me := m1.me, other := m1.other, objs := m1.objs
        collision := m1.collision, placed := m0.placed, picked := none }
  | Act.pick =>
      if m0.me.picked = none then
        match m0.objs.filter (fun o => o.x = armX && o.y = m0.me.gy) with
        | [o] =>
            { me := { m0.me with picked := some o.id }, other := m0.other, objs := m0.objs
              collision := m0.collision, placed := m0.placed, picked := some o }
        | _ =>
            { me := m0.me, other := m0.other, objs := m0.objs
              collision := m0.collision, placed := m0.placed, picked := none }
      else
        { me := m0.me, other := m0.other, objs := m0.objs
          collision := m0.collision, placed := m0.placed, picked := none }
  | Act.wait =>
      { me := m0.me, other := m0.other, objs := m0.objs
        collision := m0.collision, placed := m0.placed, picked := none }

/-- Score bar content (`ScoreBar` of `board/scorebar.py`): the list of
distinct (color, shape) representative objects together with the count of
identical placed objects, in insertion order. -/
abbrev Bar := List ((Color × Shape) × Nat)

/-- Translation of `ScoreBar.add`: search for an already placed object
with the same color and shape; increment its count when found, otherwise
append a new entry with count 1. -/
def barAdd : Bar → Color × Shape → Bar
  | [], p => [(p, 1)]
  | (q, n) :: rest, p =>
      if q = p then (q, n + 1) :: rest
      else (q, n) :: barAdd rest p

/-- Total number of placement events recorded by a score bar. -/
def barCount (b : Bar) : Nat :=
  (b.map (fun e => e.2)).sum

/-- Whole-environment state: the board's object group, both arms, the
score bars and the episode counters of `Board` and `CollabSortEnv`.
`nextId` is the ghost sprite-identity counter and `nFallen` a ghost
counter of objects removed as fallen by `Board.animate`. -/
structure EnvState where
  objs : List Obj
  nAdded : Nat
  nextId : Nat
  agent : Arm
  robot : Arm
  agentBar : Bar
  robotBar : Bar
  nRemoved : Nat
  nCollisions : Nat
  agentEpReward : Int
  robotEpReward : Int
  nFallen : Nat
deriving Repr

/-- Movingness test of `Board.moving_objects` (board/board.py lines
71-83): an object moves on its treadmill unless it is (identical to) one
of the arms' picked objects. -/
def isMovingObj (agentPicked robotPicked : Option Nat) (o : Obj) : Bool :=
  !(robotPicked = some o.id || agentPicked = some o.id)

/-- List of objects currently moving on treadmills
(`Board.moving_objects`). -/
def movingObjs (s : EnvState) : List Obj :=
  s.objs.filter (isMovingObj s.agent.picked s.robot.picked)

/-- Result of `Board.animate`: updated object group and counters, plus
the returned number of fallen objects. -/
structure AnimateOut where
  objs : List Obj
  nAdded : Nat
  nextId : Nat
  fallen : Nat
deriving Repr

/-- Translation of `Board.animate` (board/board.py lines 138-164): move
every non-picked object one column to the left, remove the ones whose x
went negative (counted as fallen), then possibly add a new object at the
rightmost column of a treadmill if the episode cap was not reached.  The
spawn input stands for the two `rng` draws: `none` when
`rng.random() >= new_object_proba`, otherwise the chosen treadmill
(true = upper) and the object's color and shape. -/
def animate (agentPicked robotPicked : Option Nat) (objs : List Obj)
    (nAdded nextId : Nat) (cap : Nat) (spawn : Option (Bool × Color × Shape)) :
    AnimateOut :=
  let moved := objs.map
    (fun o => if isMovingObj agentPicked robotPicked o then { o with x := o.x - cell } else o)
  let survivors := moved.filter
    (fun o => !(isMovingObj agentPicked robotPicked o && o.x < 0))
  let nf := moved.length - survivors.length
  match spawn with
  | some (upper, c, sh) =>
      if nAdded < cap then
        { objs := survivors ++ [{ id := nextId, x := spawnX,
                                  y := if upper then upperY else lowerY,
                                  color := c, shape := sh }]
          nAdded := nAdded + 1, nextId := nextId + 1, fallen := nf }
      else
        { objs := survivors, nAdded := nAdded, nextId := nextId, fallen := nf }
  | none => { objs := survivors, nAdded := nAdded, nextId := nextId, fallen := nf }

/-- Result of `CollabSortEnv.step`: the next state, this tick's rewards
for both arms, the termination flag, and (as ghost outputs used by the
reward code) the values the two `act` calls returned and the actions
actually passed to them. -/
structure StepOut where
  s : EnvState
  agentReward : Int
  robotReward : Int
  terminated : Bool
  robotCollision : Bool
  agentCollision : Bool
  robotPlaced : Option Obj
  agentPlaced : Option Obj
  robotPicked : Option Obj
  agentPicked : Option Obj
  robotActionUsed : Act
  agentActionUsed : Act
deriving Repr

/-- Tail of `CollabSortEnv.step` (env.py lines 225-290) after the two
`act` calls: movement penalties, the collision branch (dropping picked
objects from the gripper groups and charging the collision penalty to
both arms) or the placement/pick branch (score-bar updates and pick
rewards), followed by `Board.animate` and the termination test.
`r` is the result of the robot arm's act, `aOut` of the agent arm's act
(so `aOut.me` is the agent arm and `aOut.other` the robot arm). -/
def stepFinish (cap : Nat) (st : EnvState) (robotAction agentAction : Act)
    (sp : Option (Bool × Color × Shape)) (r aOut : ActOut) : StepOut :=
  let agent2 := aOut.me
  let robot2 := aOut.other
  let mvR : Int := if robotAction = Act.up ∨ robotAction = Act.down then movementPenalty else 0
  let mvA : Int := if agentAction = Act.up ∨ agentAction = Act.down then movementPenalty else 0
  let agentR0 := stepReward + mvA
  let robotR0 := stepReward + mvR
  if r.collision || aOut.collision then
    let (robot3, remR) :=
      if robot2.picked.isSome then ({ robot2 with picked := none }, 1) else (robot2, 0)
    let (agent3, remA) :=
      if agent2.picked.isSome then ({ agent2 with picked := none }, 1) else (agent2, 0)
    let agentR := agentR0 + collisionPenalty
    let robotR := robotR0 + collisionPenalty
    let nRem := st.nRemoved + remR + remA
    let an := animate agent3.picked robot3.picked aOut.objs st.nAdded st.nextId cap sp
    let nRem2 := nRem + an.fallen
    { s := { objs := an.objs, nAdded := an.nAdded, nextId := an.nextId,
             agent := agent3, robot := robot3,
             agentBar := st.agentBar, robotBar := st.robotBar,
             nRemoved := nRem2, nCollisions := st.nCollisions + 1,
             agentEpReward := st.agentEpReward + agentR,
             robotEpReward := st.robotEpReward + robotR,
             nFallen := st.nFallen + an.fallen }
      agentReward := agentR, robotReward := robotR
      terminated := decide (cap ≤ nRem2) && agent3.picked.isNone && robot3.picked.isNone
      robotCollision := r.collision, agentCollision := aOut.collision
      robotPlaced := r.placed, agentPlaced := aOut.placed
      robotPicked := r.picked, agentPicked := aOut.picked
      robotActionUsed := robotAction, agentActionUsed := agentAction }
  else
    let (robotBar2, remR, robotR) :=
      match r.placed with
      | some o => (barAdd st.robotBar (o.color, o.shape), 1, robotR0)
      | none =>
          match r.picked with
          | some o => (st.robotBar, 0, robotR0 + getReward robotRewards o.color o.shape)
          | none => (st.robotBar, 0, robotR0)
    let (agentBar2, remA, agentR) :=
      match aOut.placed with
      | some o => (barAdd st.agentBar (o.color, o.shape), 1, agentR0)
      | none =>
          match aOut.picked with
          | some o => (st.agentBar, 0, agentR0 + getReward agentRewards o.color o.shape)
          | none => (st.agentBar, 0, agentR0)
    let nRem := st.nRemoved + remR + remA
    let an := animate agent2.picked robot2.picked aOut.objs st.nAdded st.nextId cap sp
    let nRem2 := nRem + an.fallen
    { s := { objs := an.objs, nAdded := an.nAdded, nextId := an.nextId,
             agent := agent2, robot := robot2,
             agentBar := agentBar2, robotBar := robotBar2,
             nRemoved := nRem2, nCollisions := st.nCollisions,
             agentEpReward := st.agentEpReward + agentR,
             robotEpReward := st.robotEpReward + robotR,
             nFallen := st.nFallen + an.fallen }
      agentReward := agentR, robotReward := robotR
      terminated := decide (cap ≤ nRem2) && agent2.picked.isNone && robot2.picked.isNone
      robotCollision := r.collision, agentCollision := aOut.collision
      robotPlaced := r.placed, agentPlaced := aOut.placed
      robotPicked := r.picked, agentPicked := aOut.picked
      robotActionUsed := robotAction, agentActionUsed := agentAction }

/-- Translation of `CollabSortEnv.step` (env.py lines 192-290).  The
robot's action is supplied as a parameter standing for
`self.robot.choose_action()` and is replaced by NONE when the robot arm
is moving back; the robot arm acts first, then the agent arm (whose
action is likewise replaced by NONE if it is moving back after the
robot's act); `stepFinish` performs the rest of the tick. -/
def envStep (cap : Nat) (st : EnvState) (agentA robotA : Act)
    (spawn : Option (Bool × Color × Shape)) : StepOut :=
  let robotAction := if !st.robot.movingBack then robotA else Act.wait
  let r := armAct st.robot st.agent robotAction st.objs
  let agentAction := if !r.other.movingBack then agentA else Act.wait
  let aOut := armAct r.other r.me agentAction r.objs
  stepFinish cap st robotAction agentAction spawn r aOut

/-- Translation of `Board.reset` (board/board.py lines 128-136) followed
by the counter resets of `CollabSortEnv.reset` (env.py lines 145-162):
the added-object counter, the score bars and the episode metrics are
reset.  Nothing else is touched: the object group and both arms keep
their previous state. -/
def envReset (s : EnvState) : EnvState :=
  { s with nAdded := 0, agentBar := [], robotBar := [],
           nRemoved := 0, nCollisions := 0,
           agentEpReward := 0, robotEpReward := 0, nFallen := 0 }

/-- Freshly constructed environment (`Board.__init__` with the default
config): no objects, both arms at their bases with empty gripper groups
and cleared penalty flags, zero counters. -/
def initState : EnvState :=
  { objs := [], nAdded := 0, nextId := 0,
    agent := { baseY := agentBaseY, gy := agentBaseY, penalty := false, picked := none },
    robot := { baseY := robotBaseY, gy := robotBaseY, penalty := false, picked := none },
    agentBar := [], robotBar := [],
    nRemoved := 0, nCollisions := 0,
    agentEpReward := 0, robotEpReward := 0, nFallen := 0 }

/-- Reachability of an environment state: obtained from the freshly
constructed environment by any sequence of `step` and `reset` calls,
with arbitrary agent actions, robot-policy outputs, caps and spawn
draws. -/
inductive Reachable : EnvState → Prop where
  | init : Reachable initState
  | step : ∀ s cap aA rA sp, Reachable s → Reachable (envStep cap s aA rA sp).s
  | reset : ∀ s, Reachable s → Reachable (envReset s)

/-- Board object as seen by the scripted robot policy
(`envs/robot.py`), which works in (row, col) grid coordinates taken from
the object's `coords`. -/
structure RObj where
  row : Int
  col : Int
  color : Color
  shape : Shape
deriving DecidableEq, Repr

/-- Row of the lower treadmill (`Config.lower_treadmill_row`). -/
def lowerTreadmillRow : Int := 7

/-- Reachability filter of `Robot._get_pickable_objects` (robot.py lines
94-99): keep the objects whose horizontal distance to the gripper's
column is at least the absolute vertical distance to their row. -/
def reachableObjs (gRow gCol : Int) (objs : List RObj) : List RObj :=
  objs.filter (fun o => ((o.row - gRow).natAbs : Int) ≤ o.col - gCol)

/-- First selection loop of `Robot._get_pickable_objects` (robot.py
lines 101-106): for each shape in priority order, append every object of
that shape. -/
def selectByShapes : List Shape → List RObj → List RObj
  | [], _ => []
  | sh :: rest, objs => objs.filter (fun o => o.shape = sh) ++ selectByShapes rest objs

/-- Second selection loop of `Robot._get_pickable_objects` (robot.py
lines 108-113): for each color in priority order, append every
shape-compatible object of that color. -/
def selectByColors : List Color → List RObj → List RObj
  | [], _ => []
  | c :: rest, objs => objs.filter (fun o => o.color = c) ++ selectByColors rest objs

/-- Translation of `Robot._get_pickable_objects(colors, shapes)`
(robot.py lines 79-115): reachable objects, grouped by shape priority,
then regrouped by color priority. -/
def getPickableObjects (colors : List Color) (shapes : List Shape)
    (gRow gCol : Int) (objs : List RObj) : List RObj :=
  selectByColors colors (selectByShapes shapes (reachableObjs gRow gCol objs))

/-- Ordering the specification describes for `compatible_objects`:
"ordered by descending shape-priority then color-priority (shape is the
primary sort key, color secondary)".  Applying the color loop first and
the shape loop second makes shape the primary key.  This definition
follows the spec's words and exists to be compared with
`getPickableObjects`, which is translated from the source. -/
def specShapeMajorObjects (colors : List Color) (shapes : List Shape)
    (gRow gCol : Int) (objs : List RObj) : List RObj :=
  selectByShapes shapes (selectByColors colors (reachableObjs gRow gCol objs))

/-- Actions the scripted robot policy can emit (`Action` of
`gym_collabsort/action.py` lines 8-14): NONE, PICK_UPPER, PICK_LOWER. -/
inductive RAct where
  | rnone
  | pickUpper
  | pickLower
deriving DecidableEq, Repr

/-- Translation of `Robot.choose_action` (robot.py lines 52-77): when
the arm is retracted and the pickable list is non-empty, take its first
object as target; if the target's column distance equals the absolute
row distance the action is PICK_LOWER or PICK_UPPER according to the
target's row, otherwise NONE. -/
def chooseAction (retracted : Bool) (gRow gCol : Int)
    (colors : List Color) (shapes : List Shape) (objs : List RObj) : RAct :=
  if retracted then
    match getPickableObjects colors shapes gRow gCol objs with
    | [] => RAct.rnone
    | t :: _ =>
        if t.col - gCol = ((t.row - gRow).natAbs : Int) then
          if t.row = lowerTreadmillRow then RAct.pickLower else RAct.pickUpper
        else RAct.rnone
  else RAct.rnone

/-- Translation of `Location.add_(direction, clip)` (cell.py lines
28-39): add the direction to the (row, col) pair; when a clip bound is
supplied, clamp each component to [0, bound] as `np.clip` does (maximum
applied first, then minimum). -/
def locationAdd (loc dir : Int × Int) (clip : Option (Int × Int)) : Int × Int :=
  let r := (loc.1 + dir.1, loc.2 + dir.2)
  match clip with
  | some c => (min (max r.1 0) c.1, min (max r.2 0) c.2)
  | none => r

/-- Translation of `Sprite.move(x_offset, y_offset)` (board/sprite.py
lines 70-78): shift the sprite center by offset * board_cell_size on
each axis.  No bound is ever applied. -/
def spriteMove (p : Int × Int) (xOff yOff : Int) : Int × Int :=
  (p.1 + xOff * cell, p.2 + yOff * cell)

/-- Grid row a gripper center y corresponds to (center of row r is at
y = r * cell + cell/2). -/
def rowOf (y : Int) : Int := (y - 25) / 50

/-- Number of board rows (`Config.n_rows`). -/
def nRows : Int := 10

/-- Number of objects currently held by arms. -/
def heldCount (s : EnvState) : Nat :=
  (if s.agent.picked.isSome then 1 else 0) + (if s.robot.picked.isSome then 1 else 0)

/-- Conservation sum of claim C3: free objects + held objects + placement
events on the score bars + fallen objects, compared against the number of
objects spawned since the episode start. -/
def conserved (s : EnvState) : Prop :=
  (movingObjs s).length + heldCount s + (barCount s.agentBar + barCount s.robotBar)
    + s.nFallen = s.nAdded

instance (s : EnvState) : Decidable (conserved s) := by
  unfold conserved; infer_instance

/-- Color-then-shape bucket list: for one color of the priority list,
the objects of that color grouped by shape priority. -/
def bucketShapes : List Shape → Color → List RObj → List RObj
  | [], _, _ => []
  | sh :: rest, c, l =>
      l.filter (fun o => o.color = c ∧ o.shape = sh) ++ bucketShapes rest c l

/-- Objects grouped primarily by color priority and secondarily by shape
priority, the ordering `Robot._get_pickable_objects` actually
produces. -/
def bucketColors : List Color → List Shape → List RObj → List RObj
  | [], _, _ => []
  | c :: rest, shapes, l => bucketShapes shapes c l ++ bucketColors rest shapes l

/-- Full color priority list (all three colors). -/
def allColors : List Color := [Color.red, Color.blue, Color.yellow]

/-- Full shape priority list (all three shapes). -/
def allShapes : List Shape := [Shape.square, Shape.circle, Shape.triangle]

/-- Scenario for claim C1: the robot arm is retracting with a picked
red square (sprite id 0) one row above the agent's gripper, which sits
in its path; on this tick the grippers collide. -/
def sC1 : EnvState :=
  { objs := [{ id := 0, x := 175, y := 175, color := Color.red, shape := Shape.square }],
    nAdded := 1, nextId := 1,
    agent := { baseY := 475, gy := 125, penalty := false, picked := none },
    robot := { baseY := 25, gy := 175, penalty := false, picked := some 0 },
    agentBar := [], robotBar := [], nRemoved := 0, nCollisions := 0,
    agentEpReward := 0, robotEpReward := 0, nFallen := 0 }

/-- Scenario for claim C3: the robot arm is about to place its picked
object (one row from its base) while the agent's gripper is parked on
the robot's base cell, so the placement and a collision happen in the
same tick. -/
def sC3 : EnvState :=
  { objs := [{ id := 0, x := 175, y := 75, color := Color.red, shape := Shape.square }],
    nAdded := 1, nextId := 1,
    agent := { baseY := 475, gy := 25, penalty := false, picked := none },
    robot := { baseY := 25, gy := 75, penalty := false, picked := some 0 },
    agentBar := [], robotBar := [], nRemoved := 0, nCollisions := 0,
    agentEpReward := 0, robotEpReward := 0, nFallen := 0 }

/-- Scenario for claim C7: the agent arm places a picked red square on
this tick (its gripper is one row above its base), with no collision. -/
def sC7 : EnvState :=
  { objs := [{ id := 0, x := 175, y := 425, color := Color.red, shape := Shape.square }],
    nAdded := 1, nextId := 1,
    agent := { baseY := 475, gy := 425, penalty := false, picked := some 0 },
    robot := { baseY := 25, gy := 25, penalty := false, picked := none },
    agentBar := [], robotBar := [], nRemoved := 0, nCollisions := 0,
    agentEpReward := 0, robotEpReward := 0, nFallen := 0 }

/-- Agent arm for claim C6: holding object 0, gripper two rows above its
base. -/
def c6me : Arm := { baseY := 475, gy := 375, penalty := false, picked := some 0 }

/-- Robot arm for claim C6: idle at its base, far from the agent. -/
def c6other : Arm := { baseY := 25, gy := 25, penalty := false, picked := none }

/-- Object group for claim C6: the object held by the agent arm. -/
def c6objs : List Obj :=
  [{ id := 0, x := 175, y := 375, color := Color.red, shape := Shape.square }]

/-- Objects for claim C4: two objects in the same cell, one ranking
first by color priority, the other first by shape priority. -/
def c4objs : List RObj :=
  [{ row := 0, col := 5, color := Color.red, shape := Shape.circle },
   { row := 0, col := 5, color := Color.blue, shape := Shape.square }]

/-- Object for claim C5: on the lower treadmill, reachable from the
robot gripper at (0, 4) since 12 - 4 = 8 ≥ |7 - 0| = 7, but not aligned
for an immediate pick since 8 ≠ 7. -/
def c5objs : List RObj :=
  [{ row := 7, col := 12, color := Color.red, shape := Shape.square }]

/-- Iterated UP steps from the fresh environment: the agent gripper
climbs one row per tick toward the robot's base while the robot stays
idle.  On the ninth step the grippers collide on the robot's base cell,
leaving the robot arm penalized while already retracted. -/
def stepsUp : Nat → EnvState
  | 0 => initState
  | n + 1 => (envStep 5 (stepsUp n) Act.up Act.wait none).s

/-- State reached after one tick of the fresh environment in which a red
square spawned; used by claim C9. -/
def c9state : EnvState :=
  (envStep 5 initState Act.wait Act.wait (some (true, Color.red, Shape.square))).s

/-- Inductive invariant on a pair of arms and the shared object group,
symmetric in the two arms.  It pins the two base rows, keeps both
gripper centers on the 25 mod 50 pixel lattice, bounds every object's
row strictly between the two base rows, ties each held object to its
holder's gripper, records that overlapping grippers are either both
penalized or sitting on a base row, and keeps sprite identities unique
and below the ghost identity counter.  The `noAlias` field is the
exclusivity property of claim C2. -/
structure ArmsInv (x y : Arm) (objs : List Obj) (nid : Nat) : Prop where
  bases : (x.baseY = robotBaseY ∧ y.baseY = agentBaseY) ∨
    (x.baseY = agentBaseY ∧ y.baseY = robotBaseY)
  latticeX : x.gy % 50 = 25
  latticeY : y.gy % 50 = 25
  objsOK : ∀ o ∈ objs, 75 ≤ o.y ∧ o.y ≤ 425 ∧ o.y % 50 = 25
  heldX : ∀ i, x.picked = some i → ∃ o ∈ objs, o.id = i ∧ o.x = armX ∧ o.y = x.gy
  heldY : ∀ i, y.picked = some i → ∃ o ∈ objs, o.id = i ∧ o.x = armX ∧ o.y = y.gy
  overlap : x.gy = y.gy →
    (x.penalty = true ∧ y.penalty = true) ∨ x.gy = robotBaseY ∨ x.gy = agentBaseY
  noAlias : ∀ i j, x.picked = some i → y.picked = some j → i ≠ j
  idsNodup : (objs.map Obj.id).Nodup
  idsLt : ∀ o ∈ objs, o.id < nid

/-- Whole-state invariant: the arms invariant instantiated with the
agent and robot arms, the board's object group and the identity
counter. -/
def Inv (s : EnvState) : Prop :=
  ArmsInv s.agent s.robot s.objs s.nextId

end CollabSort

namespace CollabSort

/-- On every `Arm._move` call the returned collision status equals the
arm's own collision-penalty flag after the move (the code returns
`self.collision_penalty` after all updates). -/
theorem armMove_collision_eq_penalty (me other : Arm) (objs : List Obj) (off : Int) :
    (armMove me other objs off).collision = (armMove me other objs off).me.penalty := by
  unfold armMove
  dsimp only
  split
  · split <;> rfl
  · rfl

/-- Membership in the shape-selection loop: an object is selected when
its shape is listed and it belongs to the input list. -/
theorem mem_selectByShapes (o : RObj) :
    ∀ (shapes : List Shape) (l : List RObj),
      o ∈ selectByShapes shapes l ↔ o.shape ∈ shapes ∧ o ∈ l := by
  intro shapes
  induction shapes with
  | nil => intro l; simp [selectByShapes]
  | cons sh rest ih =>
      intro l
      simp only [selectByShapes, List.mem_append, List.mem_filter, ih, List.mem_cons,
        decide_eq_true_eq]
      constructor
      · rintro (⟨h1, h2⟩ | ⟨h1, h2⟩)
        · exact ⟨Or.inl h2, h1⟩
        · exact ⟨Or.inr h1, h2⟩
      · rintro ⟨h1 | h1, h2⟩
        · exact Or.inl ⟨h2, h1⟩
        · exact Or.inr ⟨h1, h2⟩

/-- Membership in the color-selection loop: an object is selected when
its color is listed and it belongs to the input list. -/
theorem mem_selectByColors (o : RObj) :
    ∀ (colors : List Color) (l : List RObj),
      o ∈ selectByColors colors l ↔ o.color ∈ colors ∧ o ∈ l := by
  intro colors
  induction colors with
  | nil => intro l; simp [selectByColors]
  | cons c rest ih =>
      intro l
      simp only [selectByColors, List.mem_append, List.mem_filter, ih, List.mem_cons,
        decide_eq_true_eq]
      constructor
      · rintro (⟨h1, h2⟩ | ⟨h1, h2⟩)
        · exact ⟨Or.inl h2, h1⟩
        · exact ⟨Or.inr h1, h2⟩
      · rintro ⟨h1 | h1, h2⟩
        · exact Or.inl ⟨h2, h1⟩
        · exact Or.inr ⟨h1, h2⟩

/-- Filtering the shape-selection loop by one color yields the
color-then-shape buckets of that color. -/
theorem filter_selectByShapes (c : Color) :
    ∀ (shapes : List Shape) (l : List RObj),
      (selectByShapes shapes l).filter (fun o => o.color = c) = bucketShapes shapes c l := by
  intro shapes
  induction shapes with
  | nil => intro l; simp [selectByShapes, bucketShapes]
  | cons sh rest ih =>
      intro l
      simp only [selectByShapes, bucketShapes, List.filter_append, ih]
      congr 1
      rw [List.filter_filter]
      apply List.filter_congr
      intro o _
      by_cases h1 : o.color = c <;> by_cases h2 : o.shape = sh <;> simp [h1, h2]

/-- The selection of `Robot._get_pickable_objects` equals the reachable
objects grouped primarily by color priority and secondarily by shape
priority. -/
theorem selectByColors_selectByShapes_eq_buckets :
    ∀ (colors : List Color) (shapes : List Shape) (l : List RObj),
      selectByColors colors (selectByShapes shapes l) = bucketColors colors shapes l := by
  intro colors
  induction colors with
  | nil => intro shapes l; simp [selectByColors, bucketColors]
  | cons c rest ih =>
      intro shapes l
      simp only [selectByColors, bucketColors, ih]
      congr 1
      exact filter_selectByShapes c shapes l

/-- C4: REFUTED.  With full priority lists, a red circle and a blue
square in the same reachable cell, square ranked first among shapes and
red first among colors: the claimed shape-primary ordering puts the blue
square first, but `Robot._get_pickable_objects` returns the red circle
first — color, not shape, is the primary sort key (as the function's own
docstring states: "Color is used as first selection criterion, shape as
second"). -/
theorem c4_counterexample_color_is_primary :
    getPickableObjects allColors allShapes 0 0 c4objs =
      [{ row := 0, col := 5, color := Color.red, shape := Shape.circle },
       { row := 0, col := 5, color := Color.blue, shape := Shape.square }] ∧
    specShapeMajorObjects allColors allShapes 0 0 c4objs =
      [{ row := 0, col := 5, color := Color.blue, shape := Shape.square },
       { row := 0, col := 5, color := Color.red, shape := Shape.circle }] ∧
    getPickableObjects allColors allShapes 0 0 c4objs ≠
      specShapeMajorObjects allColors allShapes 0 0 c4objs := by
  decide

/-- C4 (amended): for every set of objects and every pair of priority
lists, `Robot._get_pickable_objects` returns the reachable objects
grouped primarily by descending color priority and secondarily by
descending shape priority (color is the primary key, shape the
secondary), and it contains exactly the reachable objects whose color
and shape appear in the priority lists. -/
theorem c4_amended_color_major_grouping :
    (∀ (colors : List Color) (shapes : List Shape) (gRow gCol : Int) (objs : List RObj),
        getPickableObjects colors shapes gRow gCol objs =
          bucketColors colors shapes (reachableObjs gRow gCol objs)) ∧
    (∀ (colors : List Color) (shapes : List Shape) (gRow gCol : Int) (objs : List RObj)
        (o : RObj),
        o ∈ getPickableObjects colors shapes gRow gCol objs ↔
          o.color ∈ colors ∧ o.shape ∈ shapes ∧ o ∈ reachableObjs gRow gCol objs) := by
  constructor
  · intro colors shapes gRow gCol objs
    exact selectByColors_selectByShapes_eq_buckets colors shapes (reachableObjs gRow gCol objs)
  · intro colors shapes gRow gCol objs o
    unfold getPickableObjects
    rw [mem_selectByColors, mem_selectByShapes]

/-- C5: REFUTED.  The robot arm is idle (retracted) and a compatible,
reachable object exists (on the lower treadmill at column distance 8,
row distance 7), yet `Robot.choose_action` emits the no-op: the policy
never emits UP or DOWN — its action enum only has NONE, PICK_UPPER and
PICK_LOWER — and it does not move toward a target it cannot pick on the
current tick. -/
theorem c5_counterexample_no_movement_action :
    getPickableObjects allColors allShapes 0 4 c5objs ≠ [] ∧
    chooseAction true 0 4 allColors allShapes c5objs = RAct.rnone := by
  decide

/-- C5 (amended): when the robot arm is not retracted, or no pickable
object exists, `Robot.choose_action` emits the no-op; when it is
retracted and the pickable list is non-empty, it emits PICK_LOWER or
PICK_UPPER (according to the first pickable object's treadmill row)
exactly when that object's column distance equals its absolute row
distance, and the no-op otherwise.  It never emits a movement action. -/
theorem c5_amended_pick_or_noop :
    (∀ (gRow gCol : Int) (colors : List Color) (shapes : List Shape) (objs : List RObj),
        chooseAction false gRow gCol colors shapes objs = RAct.rnone) ∧
    (∀ (gRow gCol : Int) (colors : List Color) (shapes : List Shape) (objs : List RObj),
        getPickableObjects colors shapes gRow gCol objs = [] →
        chooseAction true gRow gCol colors shapes objs = RAct.rnone) ∧
    (∀ (gRow gCol : Int) (colors : List Color) (shapes : List Shape) (objs : List RObj)
        (t : RObj) (rest : List RObj),
        getPickableObjects colors shapes gRow gCol objs = t :: rest →
        (t.col - gCol = ((t.row - gRow).natAbs : Int) →
            chooseAction true gRow gCol colors shapes objs =
              (if t.row = lowerTreadmillRow then RAct.pickLower else RAct.pickUpper)) ∧
        (t.col - gCol ≠ ((t.row - gRow).natAbs : Int) →
            chooseAction true gRow gCol colors shapes objs = RAct.rnone)) := by
  refine ⟨fun gRow gCol colors shapes objs => rfl, ?_, ?_⟩
  · intro gRow gCol colors shapes objs h
    unfold chooseAction
    rw [h]
    rfl
  · intro gRow gCol colors shapes objs t rest h
    constructor
    · intro hal
      unfold chooseAction
      rw [h]
      split
      · split
        · rename_i heq
          simp at heq
        · rename_i x t2 tail2 heq
          injection heq with e1 e2
          subst e1
          rw [if_pos hal]
      · rename_i hf
        exact (hf rfl).elim
    · intro hal
      unfold chooseAction
      rw [h]
      split
      · split
        · rename_i heq
          simp at heq
        · rename_i x t2 tail2 heq
          injection heq with e1 e2
          subst e1
          rw [if_neg hal]
      · rename_i hf
        exact (hf rfl).elim

/-- C5 witness: the amended characterization applied to the concrete
misaligned scenario of `c5objs`. -/
theorem c5_amended_pick_or_noop_witness :
    getPickableObjects allColors allShapes 0 4 c5objs =
      { row := 7, col := 12, color := Color.red, shape := Shape.square } :: [] ∧
    (12 : Int) - 4 ≠ ((((7 : Int) - 0).natAbs : Int)) ∧
    chooseAction true 0 4 allColors allShapes c5objs = RAct.rnone := by
  refine ⟨by decide, by decide, ?_⟩
  exact ((c5_amended_pick_or_noop.2.2 0 4 allColors allShapes c5objs
    { row := 7, col := 12, color := Color.red, shape := Shape.square } [] (by decide)).2
    (by decide))

/-- C1: REFUTED by the code (code bug).  On the collision tick of
scenario `sC1` both penalty flags do become true and the robot's picked
object is emptied out of its gripper group, but the object is not
removed from the board's object group: on the very same tick it moves
with the treadmill again and reappears in `Board.moving_objects` — the
drop is a return to the free registry, not a permanent removal,
contradicting both the claim and the code's own comment "Any dropped
object is removed from the board" (env.py line 236); `n_removed_objects`
is nevertheless incremented for it. -/
theorem c1_collision_drop_returns_object_to_board :
    (envStep 5 sC1 Act.wait Act.wait none).robotCollision = true ∧
    (envStep 5 sC1 Act.wait Act.wait none).s.agent.penalty = true ∧
    (envStep 5 sC1 Act.wait Act.wait none).s.robot.penalty = true ∧
    (envStep 5 sC1 Act.wait Act.wait none).s.robot.picked = none ∧
    (movingObjs (envStep 5 sC1 Act.wait Act.wait none).s).map Obj.id = [0] ∧
    (envStep 5 sC1 Act.wait Act.wait none).s.nRemoved = 1 := by
  decide

/-- C3: REFUTED by the code (code bug).  In scenario `sC3` the object
count is conserved before the tick; during the tick the robot arm
places its object (which `Arm._move` removes from the board's object
group) while the agent arm collides with the robot's gripper on the
robot's base cell; `CollabSortEnv.step` then takes the collision branch
and skips the placement handling, so the placed object is neither added
to a score bar nor counted in `n_removed_objects`: after the tick the
object is in no collection, the conservation sum is one short of the
spawn count, and with cap 1 the episode can no longer terminate. -/
theorem c3_conservation_broken_on_place_with_collision :
    conserved sC3 ∧
    (envStep 1 sC3 Act.wait Act.wait none).robotPlaced.isSome = true ∧
    (envStep 1 sC3 Act.wait Act.wait none).robotCollision = false ∧
    (envStep 1 sC3 Act.wait Act.wait none).agentCollision = true ∧
    ¬ conserved (envStep 1 sC3 Act.wait Act.wait none).s ∧
    (envStep 1 sC3 Act.wait Act.wait none).s.objs = [] ∧
    (envStep 1 sC3 Act.wait Act.wait none).s.robotBar = [] ∧
    (envStep 1 sC3 Act.wait Act.wait none).s.nRemoved = 0 ∧
    (envStep 1 sC3 Act.wait Act.wait none).terminated = false := by
  decide

/-- C6: REFUTED.  `Arm.act` itself does not ignore a supplied manual
action on a moving-back arm: the action tests are separate `if`s after
the automatic retraction move, so `act(UP)` on the holding agent arm
`c6me` executes the retraction move and then the UP move, leaving the
gripper where it started instead of one row closer to the base;
supplying UP therefore changes the result compared with NONE. -/
theorem c6_counterexample_manual_action_not_ignored :
    c6me.movingBack = true ∧
    (armAct c6me c6other Act.wait c6objs).me.gy = 425 ∧
    (armAct c6me c6other Act.up c6objs).me.gy = 375 ∧
    (armAct c6me c6other Act.up c6objs).me.gy = c6me.gy ∧
    (armAct c6me c6other Act.up c6objs).me.gy ≠ (armAct c6me c6other Act.wait c6objs).me.gy := by
  decide

/-- C6 (amended): the ignoring of manual actions for a moving-back arm
is done by `CollabSortEnv.step`, which substitutes NONE before calling
`act`: the step result is independent of the supplied action for a
moving-back arm (the robot's flag is checked before its act, the
agent's after the robot's act), and `act` with NONE on a moving-back
arm whose gripper is off its base row performs exactly the single
`_move` of one row toward the base, the picked object moving by the
same row offset as the gripper. -/
theorem c6_amended_env_forces_retraction :
    (∀ (cap : Nat) (st : EnvState) (aA rA rA2 : Act) (sp : Option (Bool × Color × Shape)),
        st.robot.movingBack = true →
        envStep cap st aA rA sp = envStep cap st aA rA2 sp) ∧
    (∀ (cap : Nat) (st : EnvState) (aA aA2 rA : Act) (sp : Option (Bool × Color × Shape)),
        (armAct st.robot st.agent (if !st.robot.movingBack then rA else Act.wait)
          st.objs).other.movingBack = true →
        envStep cap st aA rA sp = envStep cap st aA2 rA sp) ∧
    (∀ (me other : Arm) (objs : List Obj),
        me.movingBack = true → me.baseY < me.gy →
        armAct me other Act.wait objs =
          { me := (armMove me other objs (-1)).me, other := (armMove me other objs (-1)).other,
            objs := (armMove me other objs (-1)).objs,
            collision := (armMove me other objs (-1)).collision,
            placed := (armMove me other objs (-1)).placed, picked := none }) ∧
    (∀ (me other : Arm) (objs : List Obj),
        me.movingBack = true → me.gy < me.baseY →
        armAct me other Act.wait objs =
          { me := (armMove me other objs 1).me, other := (armMove me other objs 1).other,
            objs := (armMove me other objs 1).objs,
            collision := (armMove me other objs 1).collision,
            placed := (armMove me other objs 1).placed, picked := none }) ∧
    (∀ (me other : Arm) (objs : List Obj) (off : Int) (i : Nat),
        me.picked = some i → me.gy + off * cell ≠ me.baseY →
        (armMove me other objs off).objs =
          objs.map (fun o => if o.id = i then { o with y := o.y + off * cell } else o)) := by
  refine ⟨?_, ?_, ?_, ?_, ?_⟩
  · intro cap st aA rA rA2 sp h
    simp only [envStep, h, Bool.not_true, Bool.false_eq_true, if_false]
  · intro cap st aA aA2 rA sp h
    simp only [envStep, h, Bool.not_true, Bool.false_eq_true, if_false]
  · intro me other objs h hlt
    unfold armAct
    rw [h]
    simp only [if_pos hlt, if_true]
  · intro me other objs h hlt
    unfold armAct
    rw [h]
    have hng : ¬ me.gy > me.baseY := by omega
    simp only [if_true, if_neg hng, if_pos hlt]
  · intro me other objs off i h hne
    unfold armMove
    rw [h]
    rw [if_neg hne]

/-- C6 witness: the amended statements applied to the concrete
moving-back robot arm of `sC1` and the holding agent arm `c6me`. -/
theorem c6_amended_env_forces_retraction_witness :
    sC1.robot.movingBack = true ∧
    envStep 5 sC1 Act.wait Act.up none = envStep 5 sC1 Act.wait Act.down none ∧
    c6me.movingBack = true ∧
    c6me.gy < c6me.baseY ∧
    armAct c6me c6other Act.wait c6objs =
      { me := (armMove c6me c6other c6objs 1).me, other := (armMove c6me c6other c6objs 1).other,
        objs := (armMove c6me c6other c6objs 1).objs,
        collision := (armMove c6me c6other c6objs 1).collision,
        placed := (armMove c6me c6other c6objs 1).placed, picked := none } ∧
    c6me.picked = some 0 ∧
    c6me.gy + 1 * cell ≠ c6me.baseY ∧
    (armMove c6me c6other c6objs 1).objs =
      c6objs.map (fun o => if o.id = 0 then { o with y := o.y + 1 * cell } else o) :=
  ⟨by decide,
   c6_amended_env_forces_retraction.1 5 sC1 Act.wait Act.up Act.down none (by decide),
   by decide, by decide,
   c6_amended_env_forces_retraction.2.2.2.1 c6me c6other c6objs (by decide) (by decide),
   by decide, by decide,
   c6_amended_env_forces_retraction.2.2.2.2 c6me c6other c6objs 1 0 (by decide) (by decide)⟩

/-- C7: REFUTED.  On the non-collision tick of scenario `sC7` the agent
arm successfully places a red square: the score bar records it, but the
agent's reward for the tick is 0 — `CollabSortEnv.step` adds no reward
at all on a placement (the color+shape table lookup is performed on a
successful pick instead, and the claimed table value for a red square is
8, not 0). -/
theorem c7_counterexample_placement_gives_no_reward :
    (envStep 5 sC7 Act.wait Act.wait none).robotCollision = false ∧
    (envStep 5 sC7 Act.wait Act.wait none).agentCollision = false ∧
    (envStep 5 sC7 Act.wait Act.wait none).agentPlaced.isSome = true ∧
    (envStep 5 sC7 Act.wait Act.wait none).s.agentBar = [((Color.red, Shape.square), 1)] ∧
    (envStep 5 sC7 Act.wait Act.wait none).agentActionUsed = Act.wait ∧
    (envStep 5 sC7 Act.wait Act.wait none).agentReward = 0 ∧
    getReward agentRewards Color.red Shape.square = 8 ∧
    (envStep 5 sC7 Act.wait Act.wait none).agentReward ≠
      stepReward + getReward agentRewards Color.red Shape.square := by
  decide

/-- Rewards and score bars produced by the tail of a tick, stated over
arbitrary act results. -/
theorem stepFinish_rewards :
    ∀ (cap : Nat) (st : EnvState) (rAct aAct : Act) (sp : Option (Bool × Color × Shape))
      (r aOut : ActOut),
      let o := stepFinish cap st rAct aAct sp r aOut
      let mvA : Int :=
        if o.agentActionUsed = Act.up ∨ o.agentActionUsed = Act.down then movementPenalty else 0
      let mvR : Int :=
        if o.robotActionUsed = Act.up ∨ o.robotActionUsed = Act.down then movementPenalty else 0
      ((o.robotCollision || o.agentCollision) = true →
          o.agentReward = stepReward + mvA + collisionPenalty ∧
          o.robotReward = stepReward + mvR + collisionPenalty ∧
          o.s.agentBar = st.agentBar ∧
          o.s.robotBar = st.robotBar) ∧
      ((o.robotCollision || o.agentCollision) = false →
          (∀ ob, o.agentPlaced = some ob → o.agentReward = stepReward + mvA) ∧
          (∀ ob, o.agentPlaced = none → o.agentPicked = some ob →
              o.agentReward = stepReward + mvA + getReward agentRewards ob.color ob.shape) ∧
          (o.agentPlaced = none → o.agentPicked = none → o.agentReward = stepReward + mvA) ∧
          (∀ ob, o.robotPlaced = some ob → o.robotReward = stepReward + mvR) ∧
          (∀ ob, o.robotPlaced = none → o.robotPicked = some ob →
              o.robotReward = stepReward + mvR + getReward robotRewards ob.color ob.shape) ∧
          (o.robotPlaced = none → o.robotPicked = none → o.robotReward = stepReward + mvR)) := by
  intro cap st rAct aAct sp r aOut
  unfold stepFinish
  dsimp only
  split
  · rename_i h
    constructor
    · intro _
      exact ⟨rfl, rfl, rfl, rfl⟩
    · intro h2
      rw [h] at h2
      exact Bool.noConfusion h2
  · rename_i h
    constructor
    · intro h2
      exact absurd h2 h
    · intro _
      refine ⟨?_, ?_, ?_, ?_, ?_, ?_⟩
      · intro ob hob
        dsimp only at hob ⊢
        rw [hob]
      · intro ob hnp hob
        dsimp only at hnp hob ⊢
        rw [hnp, hob]
      · intro hnp hnk
        dsimp only at hnp hnk ⊢
        rw [hnp, hnk]
      · intro ob hob
        dsimp only at hob ⊢
        rw [hob]
      · intro ob hnp hob
        dsimp only at hnp hob ⊢
        rw [hnp, hob]
      · intro hnp hnk
        dsimp only at hnp hnk ⊢
        rw [hnp, hnk]

/-- C7 (amended): on a collision tick both arms' rewards are exactly the
step reward plus their movement penalty plus the collision penalty, and
no placement reaches a score bar and no pick reward is granted (the
collision branch is mutually exclusive with the others); on a
non-collision tick a successful placement adds nothing beyond the step
reward and movement penalty, a successful pick adds the arm's
color+shape reward-table value, and otherwise only the step reward and
movement penalty remain. -/
theorem c7_amended_reward_branches :
    ∀ (cap : Nat) (st : EnvState) (aA rA : Act) (sp : Option (Bool × Color × Shape)),
      let o := envStep cap st aA rA sp
      let mvA : Int :=
        if o.agentActionUsed = Act.up ∨ o.agentActionUsed = Act.down then movementPenalty else 0
      let mvR : Int :=
        if o.robotActionUsed = Act.up ∨ o.robotActionUsed = Act.down then movementPenalty else 0
      ((o.robotCollision || o.agentCollision) = true →
          o.agentReward = stepReward + mvA + collisionPenalty ∧
          o.robotReward = stepReward + mvR + collisionPenalty ∧
          o.s.agentBar = st.agentBar ∧
          o.s.robotBar = st.robotBar) ∧
      ((o.robotCollision || o.agentCollision) = false →
          (∀ ob, o.agentPlaced = some ob → o.agentReward = stepReward + mvA) ∧
          (∀ ob, o.agentPlaced = none → o.agentPicked = some ob →
              o.agentReward = stepReward + mvA + getReward agentRewards ob.color ob.shape) ∧
          (o.agentPlaced = none → o.agentPicked = none → o.agentReward = stepReward + mvA) ∧
          (∀ ob, o.robotPlaced = some ob → o.robotReward = stepReward + mvR) ∧
          (∀ ob, o.robotPlaced = none → o.robotPicked = some ob →
              o.robotReward = stepReward + mvR + getReward robotRewards ob.color ob.shape) ∧
          (o.robotPlaced = none → o.robotPicked = none → o.robotReward = stepReward + mvR)) := by
  intro cap st aA rA sp
  exact stepFinish_rewards cap st _ _ sp _ _

/-- C7 witness: the reward-branch characterization applied to the
concrete placement tick of `sC7`. -/
theorem c7_amended_reward_branches_witness :
    ((envStep 5 sC7 Act.wait Act.wait none).robotCollision ||
      (envStep 5 sC7 Act.wait Act.wait none).agentCollision) = false ∧
    (envStep 5 sC7 Act.wait Act.wait none).agentPlaced =
      some { id := 0, x := 175, y := 475, color := Color.red, shape := Shape.square } ∧
    (envStep 5 sC7 Act.wait Act.wait none).agentReward =
      stepReward +
        (if (envStep 5 sC7 Act.wait Act.wait none).agentActionUsed = Act.up ∨
            (envStep 5 sC7 Act.wait Act.wait none).agentActionUsed = Act.down then
          movementPenalty else 0) :=
  ⟨by decide, by decide,
   ((c7_amended_reward_branches 5 sC7 Act.wait Act.wait none).2 (by decide)).1
     { id := 0, x := 175, y := 475, color := Color.red, shape := Shape.square } (by decide)⟩

/-- C8: REFUTED.  One reachable tick from the fresh environment (agent
action DOWN at its base row) moves the agent gripper to y = 525, i.e.
row 10, outside the board's rows 0..9: `Sprite.move` applies the offset
without any clamping and `Arm.act` never checks the board bounds. -/
theorem c8_counterexample_gripper_leaves_board :
    Reachable (envStep 5 initState Act.down Act.wait none).s ∧
    (envStep 5 initState Act.down Act.wait none).s.agent.gy = 525 ∧
    rowOf (envStep 5 initState Act.down Act.wait none).s.agent.gy = nRows ∧
    ¬ rowOf (envStep 5 initState Act.down Act.wait none).s.agent.gy < nRows :=
  ⟨Reachable.step initState 5 Act.down Act.wait none Reachable.init,
   by decide, by decide, by decide⟩

/-- C8 (amended): gripper movement (`Sprite.move` of board/sprite.py) is
an unclamped shift by one cell per unit offset, so gripper rows can
leave [0, n_rows); only `Location.add_` of cell.py clamps, and only when
a clip bound is supplied, in which case the result always lies within
[0, bound] on each axis. -/
theorem c8_amended_clip_only_in_location_add :
    (∀ (loc dir : Int × Int) (rMax cMax : Int), 0 ≤ rMax → 0 ≤ cMax →
        0 ≤ (locationAdd loc dir (some (rMax, cMax))).1 ∧
        (locationAdd loc dir (some (rMax, cMax))).1 ≤ rMax ∧
        0 ≤ (locationAdd loc dir (some (rMax, cMax))).2 ∧
        (locationAdd loc dir (some (rMax, cMax))).2 ≤ cMax) ∧
    (∀ (loc dir : Int × Int), locationAdd loc dir none = (loc.1 + dir.1, loc.2 + dir.2)) ∧
    (∀ (p : Int × Int) (xOff yOff : Int),
        spriteMove p xOff yOff = (p.1 + xOff * cell, p.2 + yOff * cell)) := by
  refine ⟨?_, fun loc dir => rfl, fun p xo yo => rfl⟩
  intro loc dir rMax cMax hr hc
  unfold locationAdd
  dsimp only
  refine ⟨?_, ?_, ?_, ?_⟩ <;> omega

/-- C8 witness: the clamp bounds applied to a concrete out-of-range
movement on the default 10 x 16 board. -/
theorem c8_amended_clip_only_in_location_add_witness :
    (0 : Int) ≤ 9 ∧ (0 : Int) ≤ 15 ∧
    (0 ≤ (locationAdd (9, 4) (1, 1) (some (9, 15))).1 ∧
      (locationAdd (9, 4) (1, 1) (some (9, 15))).1 ≤ 9 ∧
      0 ≤ (locationAdd (9, 4) (1, 1) (some (9, 15))).2 ∧
      (locationAdd (9, 4) (1, 1) (some (9, 15))).2 ≤ 15) :=
  ⟨by decide, by decide,
   c8_amended_clip_only_in_location_add.1 (9, 4) (1, 1) 9 15 (by decide) (by decide)⟩

/-- C9: REFUTED.  A reachable state with one spawned object: after
`reset()` the object is still in the board's object group (reset only
clears counters and score bars), so an object from the previous episode
does remain in a collection. -/
theorem c9_counterexample_reset_keeps_objects :
    Reachable c9state ∧
    c9state.objs = [{ id := 0, x := 775, y := 175, color := Color.red, shape := Shape.square }] ∧
    (envReset c9state).objs = c9state.objs ∧
    (envReset c9state).objs ≠ [] ∧
    (envReset c9state).nAdded = 0 :=
  ⟨Reachable.step initState 5 Act.wait Act.wait (some (true, Color.red, Shape.square))
      Reachable.init,
   by decide, by decide, by decide, by decide⟩

/-- C9 (amended): `reset()` clears the episode counters (added objects,
removed objects, collisions, episode rewards) and empties both score
bars, and nothing else: the object group and both arms (gripper
position, held object, penalty flag) keep their pre-reset state. -/
theorem c9_amended_reset_frame :
    ∀ s : EnvState,
      (envReset s).nAdded = 0 ∧ (envReset s).agentBar = [] ∧ (envReset s).robotBar = [] ∧
      (envReset s).nRemoved = 0 ∧ (envReset s).nCollisions = 0 ∧
      (envReset s).agentEpReward = 0 ∧ (envReset s).robotEpReward = 0 ∧
      (envReset s).nFallen = 0 ∧
      (envReset s).objs = s.objs ∧ (envReset s).agent = s.agent ∧
      (envReset s).robot = s.robot ∧ (envReset s).nextId = s.nextId :=
  fun _ => ⟨rfl, rfl, rfl, rfl, rfl, rfl, rfl, rfl, rfl, rfl, rfl, rfl⟩

/-- Every iterated-UP state is reachable from the fresh environment. -/
theorem stepsUp_reachable (n : Nat) : Reachable (stepsUp n) := by
  induction n with
  | zero => exact Reachable.init
  | succ n ih => exact Reachable.step (stepsUp n) 5 Act.up Act.wait none ih

/-- C10: REFUTED.  After nine UP ticks the agent gripper collides on the
robot's base cell, leaving the robot arm penalized while already
retracted; on the next tick the robot arm's `act` performs no movement
(its gripper row equals its base row), returns collision = False, yet
the arm's collision-penalty flag is still true after the tick — the
returned flag does not equal the flag, and the flag is never cleared. -/
theorem c10_counterexample_penalized_at_base_returns_false :
    Reachable (stepsUp 9) ∧
    (stepsUp 9).robot.penalty = true ∧
    (stepsUp 9).robot.gy = (stepsUp 9).robot.baseY ∧
    (envStep 5 (stepsUp 9) Act.wait Act.wait none).robotCollision = false ∧
    (envStep 5 (stepsUp 9) Act.wait Act.wait none).s.robot.penalty = true :=
  ⟨stepsUp_reachable 9, by decide, by decide, by decide, by decide⟩

/-- C10 (amended): whenever `Arm.act` performs a movement this call — a
moving-back retraction with the gripper off the base row, or a supplied
UP/DOWN — the returned collision status equals the arm's
collision-penalty flag after the call (in particular it stays true on
every tick of a penalized retraction and is false on the tick the
gripper reaches the base, where the flag is cleared before being
returned); when no movement occurs (NONE or PICK on an idle arm, or a
moving-back arm whose gripper is already at the base row) the call
returns false regardless of the flag. -/
theorem c10_amended_collision_flag_semantics :
    (∀ (me other : Arm) (objs : List Obj) (off : Int),
        (armMove me other objs off).collision = (armMove me other objs off).me.penalty) ∧
    (∀ (me other : Arm) (a : Act) (objs : List Obj),
        me.movingBack = true → me.gy ≠ me.baseY →
        (armAct me other a objs).collision = (armAct me other a objs).me.penalty) ∧
    (∀ (me other : Arm) (a : Act) (objs : List Obj),
        a = Act.up ∨ a = Act.down →
        (armAct me other a objs).collision = (armAct me other a objs).me.penalty) ∧
    (∀ (me other : Arm) (a : Act) (objs : List Obj),
        (me.movingBack = true → me.gy = me.baseY) → a ≠ Act.up → a ≠ Act.down →
        (armAct me other a objs).collision = false) := by
  refine ⟨armMove_collision_eq_penalty, ?_, ?_, ?_⟩
  · intro me other a objs hmb hne
    unfold armAct
    rw [hmb]
    rcases lt_or_gt_of_ne hne with hlt | hgt
    · have hng : ¬ me.gy > me.baseY := by omega
      simp only [if_true, if_neg hng, if_pos hlt]
      cases a
      · exact armMove_collision_eq_penalty me other objs 1
      · exact armMove_collision_eq_penalty _ _ _ _
      · exact armMove_collision_eq_penalty _ _ _ _
      · dsimp only
        split
        · split
          · exact armMove_collision_eq_penalty me other objs 1
          · exact armMove_collision_eq_penalty me other objs 1
        · exact armMove_collision_eq_penalty me other objs 1
    · simp only [if_true, if_pos hgt]
      cases a
      · exact armMove_collision_eq_penalty me other objs (-1)
      · exact armMove_collision_eq_penalty _ _ _ _
      · exact armMove_collision_eq_penalty _ _ _ _
      · dsimp only
        split
        · split
          · exact armMove_collision_eq_penalty me other objs (-1)
          · exact armMove_collision_eq_penalty me other objs (-1)
        · exact armMove_collision_eq_penalty me other objs (-1)
  · intro me other a objs ha
    unfold armAct
    rcases ha with rfl | rfl
    · exact armMove_collision_eq_penalty _ _ _ _
    · exact armMove_collision_eq_penalty _ _ _ _
  · intro me other a objs hmb hup hdn
    unfold armAct
    cases hm : me.movingBack with
    | false =>
        simp only [hm, Bool.false_eq_true, if_false]
        cases a
        · rfl
        · exact absurd rfl hup
        · exact absurd rfl hdn
        · dsimp only
          split
          · split
            · rfl
            · rfl
          · rfl
    | true =>
        have heq : me.gy = me.baseY := hmb hm
        have h1 : ¬ me.gy > me.baseY := by omega
        have h2 : ¬ me.gy < me.baseY := by omega
        simp only [hm, if_true, if_neg h1, if_neg h2]
        cases a
        · rfl
        · exact absurd rfl hup
        · exact absurd rfl hdn
        · dsimp only
          split
          · split
            · rfl
            · rfl
          · rfl

/-- C10 witness: the amended flag semantics applied to a penalized
retraction tick (moving, flag preserved and returned) and to the
penalized-at-base arm (no movement, false returned while the flag is
set). -/
theorem c10_amended_collision_flag_semantics_witness :
    ({ baseY := 25, gy := 125, penalty := true, picked := none } : Arm).movingBack = true ∧
    (125 : Int) ≠ 25 ∧
    (armAct { baseY := 25, gy := 125, penalty := true, picked := none }
        { baseY := 475, gy := 475, penalty := false, picked := none } Act.wait []).collision =
      (armAct { baseY := 25, gy := 125, penalty := true, picked := none }
        { baseY := 475, gy := 475, penalty := false, picked := none } Act.wait []).me.penalty ∧
    (armAct { baseY := 25, gy := 25, penalty := true, picked := none }
        { baseY := 475, gy := 75, penalty := false, picked := none } Act.wait []).collision =
      false :=
  ⟨by decide, by decide,
   c10_amended_collision_flag_semantics.2.1
     { baseY := 25, gy := 125, penalty := true, picked := none }
     { baseY := 475, gy := 475, penalty := false, picked := none } Act.wait [] (by decide)
     (by decide),
   c10_amended_collision_flag_semantics.2.2.2
     { baseY := 25, gy := 25, penalty := true, picked := none }
     { baseY := 475, gy := 75, penalty := false, picked := none } Act.wait []
     (fun _ => by decide) (by decide) (by decide)⟩

/-- The arms invariant is symmetric in the two arms. -/
theorem armsInv_swap {x y : Arm} {objs : List Obj} {nid : Nat}
    (hv : ArmsInv x y objs nid) : ArmsInv y x objs nid := by
  obtain ⟨hbases, hlx, hly, hobjs, hheldx, hheldy, hover, halias, hnodup, hlt⟩ := hv
  refine ⟨?_, hly, hlx, hobjs, hheldy, hheldx, ?_, ?_, hnodup, hlt⟩
  · rcases hbases with ⟨h1, h2⟩ | ⟨h1, h2⟩
    · exact Or.inr ⟨h2, h1⟩
    · exact Or.inl ⟨h2, h1⟩
  · intro heq
    rcases hover heq.symm with ⟨p1, p2⟩ | hb | hb
    · exact Or.inl ⟨p2, p1⟩
    · exact Or.inr (Or.inl (heq.trans hb))
    · exact Or.inr (Or.inr (heq.trans hb))
  · intro i j hi hj
    exact (halias j i hj hi).symm

/-- The gripper-carry update of `Arm._move` keeps every sprite id. -/
theorem shift_preserves_id (i : Nat) (d : Int) (o : Obj) :
    ((fun o => if o.id = i then { o with y := o.y + d } else o) o).id = o.id := by
  dsimp only
  split <;> rfl

/-- The gripper-carry update of `Arm._move` keeps the id list. -/
theorem mapShift_ids (objs : List Obj) (i : Nat) (d : Int) :
    (objs.map (fun o => if o.id = i then { o with y := o.y + d } else o)).map Obj.id =
      objs.map Obj.id := by
  rw [List.map_map]
  exact List.map_congr_left (fun o _ => shift_preserves_id i d o)

/-- Equal gripper centers always collide (distance 0 < 25). -/
theorem collide_of_eq (y1 y2 : Int) (h : y1 = y2) : collideY y1 y2 = true := by
  subst h
  simp [collideY]

/-- Preservation of the arms invariant by one `Arm._move` call of the
moving arm, provided the arm either holds nothing (a plain UP/DOWN move)
or moves one row toward its own base (a retraction move). -/
theorem armsInv_move (me other : Arm) (objs : List Obj) (nid : Nat) (off : Int)
    (hv : ArmsInv me other objs nid) (hoff : off = 1 ∨ off = -1)
    (hdir : me.picked = none ∨ (off = -1 ∧ me.baseY < me.gy) ∨ (off = 1 ∧ me.gy < me.baseY)) :
    ArmsInv (armMove me other objs off).me (armMove me other objs off).other
      (armMove me other objs off).objs nid := by
  obtain ⟨hbases, hlx, hly, hobjs, hheldx, hheldy, hover, halias, hnodup, hlt⟩ := hv
  have hrb : robotBaseY = (25 : Int) := rfl
  have hab : agentBaseY = (475 : Int) := rfl
  have hcell : cell = (50 : Int) := rfl
  have hbase : me.baseY = robotBaseY ∨ me.baseY = agentBaseY := by
    rcases hbases with ⟨h1, _⟩ | ⟨h1, _⟩
    · exact Or.inl h1
    · exact Or.inr h1
  have hlat2 : (me.gy + off * cell) % 50 = 25 := by
    rcases hoff with rfl | rfl <;> omega
  unfold armMove
  dsimp only
  cases hp : me.picked with
  | none =>
      by_cases hret : me.gy + off * cell = me.baseY
      · rw [if_pos hret]
        dsimp only
        refine ⟨hbases, hlat2, hly, hobjs, ?_, ?_, ?_, ?_, hnodup, hlt⟩
        · intro i hi
          exact Option.noConfusion hi
        · intro i hi
          exact hheldy i hi
        · intro _
          rcases hbase with hb | hb
          · exact Or.inr (Or.inl (hret.trans hb))
          · exact Or.inr (Or.inr (hret.trans hb))
        · intro i j hi hj
          exact Option.noConfusion hi
      · rw [if_neg hret]
        dsimp only
        refine ⟨hbases, hlat2, hly, hobjs, ?_, ?_, ?_, ?_, hnodup, hlt⟩
        · intro i hi
          exact Option.noConfusion hi
        · intro i hi
          exact hheldy i hi
        · intro heq
          have hhit := collide_of_eq _ _ heq
          exact Or.inl ⟨by rw [if_pos hhit], by rw [if_pos hhit]⟩
        · intro i j hi hj
          exact Option.noConfusion hi
  | some i =>
      obtain ⟨o0, ho0mem, ho0id, ho0x, ho0y⟩ := hheldx i hp
      obtain ⟨hb1, hb2, _⟩ := hobjs o0 ho0mem
      have hdir2 : (off = -1 ∧ me.baseY < me.gy) ∨ (off = 1 ∧ me.gy < me.baseY) := by
        rcases hdir with h | h | h
        · rw [hp] at h
          exact Option.noConfusion h
        · exact Or.inl h
        · exact Or.inr h
      by_cases hret : me.gy + off * cell = me.baseY
      · rw [if_pos hret]
        dsimp only
        refine ⟨hbases, hlat2, hly, ?_, ?_, ?_, ?_, ?_, ?_, ?_⟩
        · intro o ho
          rw [List.mem_filter] at ho
          obtain ⟨ho1, hne⟩ := ho
          obtain ⟨orig, horigmem, horigeq⟩ := List.mem_map.mp ho1
          by_cases hoi : orig.id = i
          · rw [if_pos hoi] at horigeq
            rw [← horigeq] at hne
            simp at hne
            exact absurd hoi hne
          · rw [if_neg hoi] at horigeq
            rw [← horigeq]
            exact hobjs orig horigmem
        · intro j hj
          exact Option.noConfusion hj
        · intro j hj
          obtain ⟨o2, ho2mem, ho2id, ho2x, ho2y⟩ := hheldy j hj
          have hji : o2.id ≠ i := by
            rw [ho2id]
            exact (halias i j hp hj).symm
          refine ⟨o2, ?_, ho2id, ho2x, ho2y⟩
          rw [List.mem_filter]
          constructor
          · rw [List.mem_map]
            refine ⟨o2, ho2mem, ?_⟩
            dsimp only
            rw [if_neg hji]
          · simpa using hji
        · intro _
          rcases hbase with hb | hb
          · exact Or.inr (Or.inl (hret.trans hb))
          · exact Or.inr (Or.inr (hret.trans hb))
        · intro i2 j hi2 hj
          exact Option.noConfusion hi2
        · have hsub : List.Sublist
              (((objs.map (fun o => if o.id = i then { o with y := o.y + off * cell }
                else o)).filter (fun o => o.id ≠ i)).map Obj.id)
              ((objs.map (fun o => if o.id = i then { o with y := o.y + off * cell }
                else o)).map Obj.id) :=
            (List.filter_sublist _).map Obj.id
          refine List.Nodup.sublist hsub ?_
          rw [mapShift_ids]
          exact hnodup
        · intro o ho
          rw [List.mem_filter] at ho
          obtain ⟨ho1, _⟩ := ho
          obtain ⟨orig, horigmem, horigeq⟩ := List.mem_map.mp ho1
          have : o.id = orig.id := by
            rw [← horigeq]
            exact shift_preserves_id i (off * cell) orig
          rw [this]
          exact hlt orig horigmem
      · rw [if_neg hret]
        dsimp only
        have hbnd : 75 ≤ me.gy + off * cell ∧ me.gy + off * cell ≤ 425 := by
          rw [ho0y] at hb1 hb2
          have hl := hlx
          rcases hdir2 with ⟨rfl, hgt⟩ | ⟨rfl, hltb⟩
          · rcases hbase with hb | hb <;> omega
          · rcases hbase with hb | hb <;> omega
        refine ⟨hbases, hlat2, hly, ?_, ?_, ?_, ?_, ?_, ?_, ?_⟩
        · intro o ho
          obtain ⟨orig, horigmem, horigeq⟩ := List.mem_map.mp ho
          by_cases hoi : orig.id = i
          · have horig0 : orig = o0 :=
              List.inj_on_of_nodup_map hnodup horigmem ho0mem (by rw [hoi, ho0id])
            rw [if_pos hoi] at horigeq
            rw [← horigeq]
            refine ⟨?_, ?_, ?_⟩
            · dsimp only
              rw [horig0, ho0y]
              exact hbnd.1
            · dsimp only
              rw [horig0, ho0y]
              exact hbnd.2
            · dsimp only
              rw [horig0, ho0y]
              exact hlat2
          · rw [if_neg hoi] at horigeq
            rw [← horigeq]
            exact hobjs orig horigmem
        · intro j hj
          have hij : i = j := Option.some.inj hj
          subst hij
          refine ⟨{ o0 with y := o0.y + off * cell }, ?_, ho0id, ho0x, ?_⟩
          · have hmm := List.mem_map_of_mem
              (fun o => if o.id = i then { o with y := o.y + off * cell } else o) ho0mem
            dsimp only at hmm
            rw [if_pos ho0id] at hmm
            exact hmm
          · dsimp only
            rw [ho0y]
        · intro j hj
          obtain ⟨o2, ho2mem, ho2id, ho2x, ho2y⟩ := hheldy j hj
          have hji : o2.id ≠ i := by
            rw [ho2id]
            exact (halias i j hp hj).symm
          refine ⟨o2, ?_, ho2id, ho2x, ho2y⟩
          have hmm := List.mem_map_of_mem
            (fun o => if o.id = i then { o with y := o.y + off * cell } else o) ho2mem
          dsimp only at hmm
          rw [if_neg hji] at hmm
          exact hmm
        · intro heq
          have hhit := collide_of_eq _ _ heq
          exact Or.inl ⟨by rw [if_pos hhit], by rw [if_pos hhit]⟩
        · intro i1 j hi1 hj
          cases Option.some.inj hi1
          exact halias i j hp hj
        · rw [mapShift_ids]
          exact hnodup
        · intro o ho
          obtain ⟨orig, horigmem, horigeq⟩ := List.mem_map.mp ho
          have : o.id = orig.id := by
            rw [← horigeq]
            exact shift_preserves_id i (off * cell) orig
          rw [this]
          exact hlt orig horigmem

/-- Preservation of the arms invariant by one `Arm.act` call, under the
action discipline of `CollabSortEnv.step`: a moving-back arm is always
given the NONE action. -/
theorem armsInv_act (me other : Arm) (a : Act) (objs : List Obj) (nid : Nat)
    (hv : ArmsInv me other objs nid)
    (hforce : me.movingBack = true → a = Act.wait) :
    ArmsInv (armAct me other a objs).me (armAct me other a objs).other
      (armAct me other a objs).objs nid := by
  cases hmb : me.movingBack with
  | true =>
      have ha := hforce hmb
      subst ha
      unfold armAct
      rw [hmb]
      rcases lt_trichotomy me.gy me.baseY with hlt | heq | hgt
      · have hng : ¬ me.gy > me.baseY := by omega
        simp only [if_true, if_neg hng, if_pos hlt]
        exact armsInv_move me other objs nid 1 hv (Or.inl rfl) (Or.inr (Or.inr ⟨rfl, hlt⟩))
      · have hng : ¬ me.gy > me.baseY := by omega
        have hns : ¬ me.gy < me.baseY := by omega
        simp only [if_true, if_neg hng, if_neg hns]
        exact hv
      · simp only [if_true, if_pos hgt]
        exact armsInv_move me other objs nid (-1) hv (Or.inr rfl) (Or.inr (Or.inl ⟨rfl, hgt⟩))
  | false =>
      have hpick : me.picked = none := by
        unfold Arm.movingBack at hmb
        cases h : me.picked with
        | none => rfl
        | some k =>
            rw [h] at hmb
            simp at hmb
      have hpen : me.penalty = false := by
        unfold Arm.movingBack at hmb
        rcases Bool.or_eq_false_iff.mp hmb with ⟨_, h2⟩
        exact h2
      unfold armAct
      rw [hmb]
      simp only [Bool.false_eq_true, if_false]
      cases a with
      | wait =>
          dsimp only
          exact hv
      | up =>
          dsimp only
          exact armsInv_move me other objs nid (-1) hv (Or.inr rfl) (Or.inl hpick)
      | down =>
          dsimp only
          exact armsInv_move me other objs nid 1 hv (Or.inl rfl) (Or.inl hpick)
      | pick =>
          dsimp only
          rw [if_pos hpick]
          obtain ⟨hbases, hlx, hly, hobjs, hheldx, hheldy, hover, halias, hnodup, hlt⟩ := hv
          cases hfil : objs.filter (fun o => o.x = armX && o.y = me.gy) with
          | nil =>
              dsimp only
              exact ⟨hbases, hlx, hly, hobjs, hheldx, hheldy, hover, halias, hnodup, hlt⟩
          | cons o rest =>
              cases rest with
              | cons o2 rest2 =>
                  dsimp only
                  exact ⟨hbases, hlx, hly, hobjs, hheldx, hheldy, hover, halias, hnodup, hlt⟩
              | nil =>
                  dsimp only
                  have hofil : o ∈ objs.filter (fun o => o.x = armX && o.y = me.gy) := by
                    rw [hfil]
                    exact List.mem_cons_self o []
                  obtain ⟨homem, hcond⟩ := List.mem_filter.mp hofil
                  simp only [Bool.and_eq_true, decide_eq_true_eq] at hcond
                  obtain ⟨hox, hoy⟩ := hcond
                  refine ⟨hbases, hlx, hly, hobjs, ?_, ?_, hover, ?_, hnodup, hlt⟩
                  · intro i hi
                    exact ⟨o, homem, Option.some.inj hi, hox, hoy⟩
                  · intro j hj
                    exact hheldy j hj
                  · intro i j hi hj
                    have hio : i = o.id := (Option.some.inj hi).symm
                    subst hio
                    obtain ⟨o2, ho2mem, ho2id, ho2x, ho2y⟩ := hheldy j hj
                    intro heqid
                    have ho2o : o2 = o :=
                      List.inj_on_of_nodup_map hnodup ho2mem homem (by rw [ho2id, ← heqid])
                    have h1 : o.y = other.gy := by
                      rw [← ho2o]
                      exact ho2y
                    have hyy : me.gy = other.gy := by
                      rw [← hoy]
                      exact h1
                    rcases hover hyy with ⟨hp1, _⟩ | hb | hb
                    · rw [hpen] at hp1
                      exact Bool.noConfusion hp1
                    · obtain ⟨hbd1, hbd2, _⟩ := hobjs o homem
                      rw [hoy] at hbd1 hbd2
                      have hrb : robotBaseY = (25 : Int) := rfl
                      omega
                    · obtain ⟨hbd1, hbd2, _⟩ := hobjs o homem
                      rw [hoy] at hbd1 hbd2
                      have hab : agentBaseY = (475 : Int) := rfl
                      omega

/-- The treadmill shift of `Board.animate` keeps id and row of every
object. -/
theorem treadmill_preserves (ap rp : Option Nat) (o : Obj) :
    ((fun o => if isMovingObj ap rp o then { o with x := o.x - cell } else o) o).id = o.id ∧
    ((fun o => if isMovingObj ap rp o then { o with x := o.x - cell } else o) o).y = o.y := by
  dsimp only
  split <;> exact ⟨rfl, rfl⟩

/-- Preservation of the arms invariant by the movement-and-removal part
of `Board.animate`. -/
theorem armsInv_survivors (x y : Arm) (objs : List Obj) (nid : Nat)
    (hv : ArmsInv x y objs nid) :
    ArmsInv x y
      ((objs.map (fun o => if isMovingObj x.picked y.picked o then { o with x := o.x - cell }
        else o)).filter (fun o => !(isMovingObj x.picked y.picked o && o.x < 0))) nid := by
  obtain ⟨hbases, hlx, hly, hobjs, hheldx, hheldy, hover, halias, hnodup, hlt⟩ := hv
  have horig : ∀ o ∈ ((objs.map (fun o => if isMovingObj x.picked y.picked o
      then { o with x := o.x - cell } else o)).filter
      (fun o => !(isMovingObj x.picked y.picked o && o.x < 0))),
      ∃ orig ∈ objs, o.id = orig.id ∧ o.y = orig.y := by
    intro o ho
    obtain ⟨ho1, _⟩ := List.mem_filter.mp ho
    obtain ⟨orig, horigmem, horigeq⟩ := List.mem_map.mp ho1
    obtain ⟨hid, hy⟩ := treadmill_preserves x.picked y.picked orig
    dsimp only at hid hy
    rw [horigeq] at hid hy
    exact ⟨orig, horigmem, hid, hy⟩
  have hheld : ∀ o ∈ objs, (y.picked = some o.id ∨ x.picked = some o.id) →
      o ∈ ((objs.map (fun o => if isMovingObj x.picked y.picked o
        then { o with x := o.x - cell } else o)).filter
        (fun o => !(isMovingObj x.picked y.picked o && o.x < 0))) := by
    intro o ho hcase
    have hmov : isMovingObj x.picked y.picked o = false := by
      unfold isMovingObj
      rcases hcase with h | h <;> simp [h]
    have hself := List.mem_map_of_mem
      (fun o => if isMovingObj x.picked y.picked o then { o with x := o.x - cell } else o) ho
    dsimp only at hself
    rw [hmov] at hself
    simp only [Bool.false_eq_true, if_false] at hself
    rw [List.mem_filter]
    refine ⟨hself, ?_⟩
    rw [hmov]
    simp
  refine ⟨hbases, hlx, hly, ?_, ?_, ?_, hover, halias, ?_, ?_⟩
  · intro o ho
    obtain ⟨orig, horigmem, _, hy⟩ := horig o ho
    rw [hy]
    exact hobjs orig horigmem
  · intro i hi
    obtain ⟨o, homem, hid, hx, hy⟩ := hheldx i hi
    refine ⟨o, ?_, hid, hx, hy⟩
    refine hheld o homem (Or.inr ?_)
    rw [hid]
    exact hi
  · intro i hi
    obtain ⟨o, homem, hid, hx, hy⟩ := hheldy i hi
    refine ⟨o, ?_, hid, hx, hy⟩
    refine hheld o homem (Or.inl ?_)
    rw [hid]
    exact hi
  · have hids : ((objs.map (fun o => if isMovingObj x.picked y.picked o
        then { o with x := o.x - cell } else o)).map Obj.id) = objs.map Obj.id := by
      rw [List.map_map]
      exact List.map_congr_left (fun o _ => (treadmill_preserves x.picked y.picked o).1)
    have hsub : List.Sublist
        ((((objs.map (fun o => if isMovingObj x.picked y.picked o
          then { o with x := o.x - cell } else o)).filter
          (fun o => !(isMovingObj x.picked y.picked o && o.x < 0))).map Obj.id))
        (((objs.map (fun o => if isMovingObj x.picked y.picked o
          then { o with x := o.x - cell } else o)).map Obj.id)) :=
      (List.filter_sublist _).map Obj.id
    refine List.Nodup.sublist hsub ?_
    rw [hids]
    exact hnodup
  · intro o ho
    obtain ⟨orig, horigmem, hid, _⟩ := horig o ho
    rw [hid]
    exact hlt orig horigmem

/-- Appending a freshly spawned object (with the current ghost id and a
treadmill row) preserves the arms invariant, bumping the counter. -/
theorem armsInv_spawn (x y : Arm) (objs : List Obj) (nid : Nat)
    (hv : ArmsInv x y objs nid) (upper : Bool) (c : Color) (sh : Shape) :
    ArmsInv x y
      (objs ++ [{ id := nid, x := spawnX, y := if upper then upperY else lowerY,
                  color := c, shape := sh }]) (nid + 1) := by
  obtain ⟨hbases, hlx, hly, hobjs, hheldx, hheldy, hover, halias, hnodup, hlt⟩ := hv
  refine ⟨hbases, hlx, hly, ?_, ?_, ?_, hover, halias, ?_, ?_⟩
  · intro o ho
    rcases List.mem_append.mp ho with h | h
    · exact hobjs o h
    · rw [List.mem_singleton] at h
      subst h
      cases upper <;> refine ⟨?_, ?_, ?_⟩ <;> simp [upperY, lowerY]
  · intro i hi
    obtain ⟨o, homem, hid, hx, hy⟩ := hheldx i hi
    exact ⟨o, List.mem_append_left _ homem, hid, hx, hy⟩
  · intro i hi
    obtain ⟨o, homem, hid, hx, hy⟩ := hheldy i hi
    exact ⟨o, List.mem_append_left _ homem, hid, hx, hy⟩
  · rw [List.map_append]
    rw [List.nodup_append]
    refine ⟨hnodup, List.nodup_singleton _, ?_⟩
    intro a ha hb
    rw [List.map_singleton, List.mem_singleton] at hb
    dsimp only at hb
    obtain ⟨o, homem, hoid⟩ := List.mem_map.mp ha
    have := hlt o homem
    omega
  · intro o ho
    rcases List.mem_append.mp ho with h | h
    · have := hlt o h
      omega
    · rw [List.mem_singleton] at h
      subst h
      dsimp only
      omega

/-- Preservation of the arms invariant by `Board.animate`. -/
theorem armsInv_animate (x y : Arm) (objs : List Obj) (nid nAdded cap : Nat)
    (sp : Option (Bool × Color × Shape)) (hv : ArmsInv x y objs nid) :
    ArmsInv x y (animate x.picked y.picked objs nAdded nid cap sp).objs
      (animate x.picked y.picked objs nAdded nid cap sp).nextId := by
  have hs := armsInv_survivors x y objs nid hv
  unfold animate
  dsimp only
  cases sp with
  | none => exact hs
  | some t =>
      obtain ⟨upper, c, sh⟩ := t
      dsimp only
      by_cases hcap : nAdded < cap
      · rw [if_pos hcap]
        exact armsInv_spawn x y _ nid hs upper c sh
      · rw [if_neg hcap]
        exact hs

/-- Emptying either gripper group (the collision drop of
`CollabSortEnv.step`) preserves the arms invariant. -/
theorem armsInv_clear (x y : Arm) (objs : List Obj) (nid : Nat)
    (hv : ArmsInv x y objs nid) (x2 y2 : Arm)
    (hx : x2 = x ∨ x2 = { x with picked := none })
    (hy : y2 = y ∨ y2 = { y with picked := none }) :
    ArmsInv x2 y2 objs nid := by
  obtain ⟨hbases, hlx, hly, hobjs, hheldx, hheldy, hover, halias, hnodup, hlt⟩ := hv
  rcases hx with rfl | rfl <;> rcases hy with rfl | rfl
  · exact ⟨hbases, hlx, hly, hobjs, hheldx, hheldy, hover, halias, hnodup, hlt⟩
  · refine ⟨hbases, hlx, hly, hobjs, hheldx, ?_, hover, ?_, hnodup, hlt⟩
    · intro i hi
      exact Option.noConfusion hi
    · intro i j hi hj
      exact Option.noConfusion hj
  · refine ⟨hbases, hlx, hly, hobjs, ?_, hheldy, hover, ?_, hnodup, hlt⟩
    · intro i hi
      exact Option.noConfusion hi
    · intro i j hi hj
      exact Option.noConfusion hi
  · refine ⟨hbases, hlx, hly, hobjs, ?_, ?_, hover, ?_, hnodup, hlt⟩
    · intro i hi
      exact Option.noConfusion hi
    · intro i hi
      exact Option.noConfusion hi
    · intro i j hi hj
      exact Option.noConfusion hi

/-- The whole-state invariant holds in the fresh environment. -/
theorem inv_init : Inv initState := by
  refine ⟨Or.inr ⟨rfl, rfl⟩, by decide, by decide, ?_, ?_, ?_, ?_, ?_, ?_, ?_⟩
  · intro o ho
    exact absurd ho (List.not_mem_nil o)
  · intro i hi
    exact Option.noConfusion hi
  · intro i hi
    exact Option.noConfusion hi
  · intro h
    exact absurd h (by decide)
  · intro i j hi hj
    exact Option.noConfusion hi
  · exact List.nodup_nil
  · intro o ho
    exact absurd ho (List.not_mem_nil o)

/-- The whole-state invariant is preserved by `Board.reset` plus the
counter resets of `CollabSortEnv.reset`, which touch neither the object
group nor the arms. -/
theorem inv_reset (s : EnvState) (hv : Inv s) : Inv (envReset s) := hv

/-- The tail of the tick (`stepFinish`) preserves the arms/objects
invariant: the collision branch only clears picked slots, and both
branches end in `animate`. -/
theorem inv_stepFinish (cap : Nat) (st : EnvState) (rAct aAct : Act)
    (sp : Option (Bool × Color × Shape)) (r aOut : ActOut)
    (hv : ArmsInv aOut.me aOut.other aOut.objs st.nextId) :
    ArmsInv (stepFinish cap st rAct aAct sp r aOut).s.agent
      (stepFinish cap st rAct aAct sp r aOut).s.robot
      (stepFinish cap st rAct aAct sp r aOut).s.objs
      (stepFinish cap st rAct aAct sp r aOut).s.nextId := by
  unfold stepFinish
  dsimp only
  split
  · dsimp only
    split
    · split
      · dsimp only
        exact armsInv_animate _ _ _ _ _ _ _
          (armsInv_clear _ _ _ _ hv _ _ (Or.inr rfl) (Or.inr rfl))
      · dsimp only
        exact armsInv_animate _ _ _ _ _ _ _
          (armsInv_clear _ _ _ _ hv _ _ (Or.inr rfl) (Or.inl rfl))
    · split
      · dsimp only
        exact armsInv_animate _ _ _ _ _ _ _
          (armsInv_clear _ _ _ _ hv _ _ (Or.inl rfl) (Or.inr rfl))
      · dsimp only
        exact armsInv_animate _ _ _ _ _ _ _
          (armsInv_clear _ _ _ _ hv _ _ (Or.inl rfl) (Or.inl rfl))
  · dsimp only
    exact armsInv_animate _ _ _ _ _ _ _ hv

/-- The whole-state invariant is preserved by one `CollabSortEnv.step`
tick, for every agent action, robot-policy output, cap and spawn
draw. -/
theorem inv_step (cap : Nat) (st : EnvState) (aA rA : Act)
    (sp : Option (Bool × Color × Shape)) (hv : Inv st) : Inv (envStep cap st aA rA sp).s := by
  have h1 : ArmsInv st.robot st.agent st.objs st.nextId := armsInv_swap hv
  have hforce1 : st.robot.movingBack = true →
      (if !st.robot.movingBack then rA else Act.wait) = Act.wait := by
    intro h
    rw [h]
    rfl
  have h2 := armsInv_act st.robot st.agent
    (if !st.robot.movingBack then rA else Act.wait) st.objs st.nextId h1 hforce1
  have h3 := armsInv_swap h2
  have hforce2 : (armAct st.robot st.agent
      (if !st.robot.movingBack then rA else Act.wait) st.objs).other.movingBack = true →
      (if !(armAct st.robot st.agent
        (if !st.robot.movingBack then rA else Act.wait) st.objs).other.movingBack
        then aA else Act.wait) = Act.wait := by
    intro h
    rw [h]
    rfl
  have h4 := armsInv_act
    (armAct st.robot st.agent (if !st.robot.movingBack then rA else Act.wait) st.objs).other
    (armAct st.robot st.agent (if !st.robot.movingBack then rA else Act.wait) st.objs).me
    (if !(armAct st.robot st.agent
      (if !st.robot.movingBack then rA else Act.wait) st.objs).other.movingBack
      then aA else Act.wait)
    (armAct st.robot st.agent (if !st.robot.movingBack then rA else Act.wait) st.objs).objs
    st.nextId h3 hforce2
  exact inv_stepFinish cap st _ _ sp _ _ h4

/-- Every reachable environment state satisfies the whole-state
invariant, by induction over the reachability relation. -/
theorem inv_reachable (s : EnvState) (hr : Reachable s) : Inv s := by
  induction hr with
  | init => exact inv_init
  | step s cap aA rA sp _ ih => exact inv_step cap s aA rA sp ih
  | reset s _ ih => exact inv_reset s ih

/-- C2: in every reachable board state an object is referenced by at
most one arm's picked slot (the two picked slots never hold the same
identity), and no object of the moving-object (free) registry is
simultaneously held by an arm; since every state produced during a tick
by the arms' `act` and the board's `animate` is again reachable, every
tick preserves this exclusivity. -/
theorem c2_picked_exclusivity (s : EnvState) (hr : Reachable s) :
    (∀ i j, s.agent.picked = some i → s.robot.picked = some j → i ≠ j) ∧
    (∀ o ∈ movingObjs s, s.agent.picked ≠ some o.id ∧ s.robot.picked ≠ some o.id) := by
  have hv : Inv s := inv_reachable s hr
  refine ⟨hv.noAlias, ?_⟩
  intro o ho
  have hm := (List.mem_filter.mp ho).2
  simp only [isMovingObj, Bool.not_eq_eq_eq_not, Bool.not_true, Bool.or_eq_false_iff,
    decide_eq_false_iff_not] at hm
  exact ⟨hm.2, hm.1⟩

/-- Witness for C2 at the freshly constructed environment. -/
theorem c2_picked_exclusivity_witness :
    Reachable initState ∧
    ((∀ i j, initState.agent.picked = some i → initState.robot.picked = some j → i ≠ j) ∧
      (∀ o ∈ movingObjs initState,
        initState.agent.picked ≠ some o.id ∧ initState.robot.picked ≠ some o.id)) :=
  ⟨Reachable.init, c2_picked_exclusivity initState Reachable.init⟩

end CollabSort
